import Mathlib

/-!
Shallow embedding of the credential-rotation / token-caching core of the
repository (src/auth.ts, class AuthManager) together with proofs of the
behavioural properties stated in the design document.

Modelling conventions:
* Machine time (`Date.now()`) is passed explicitly as `now : Int`
  (milliseconds since epoch); no time passes during a single operation.
* The Cloudflare KV store is an association list of entries
  (key, value, optional TTL).  Values are typed (`KVVal`): plain strings
  for the cursor and exhaustion keys, structured token records for the
  token-cache keys (the source stores JSON text and reads it back with
  `get(key, "json")`; the typed store abstracts that round trip).
* JavaScript numbers appearing in index arithmetic are modelled by
  `JSNum`, an integer extended with `NaN`, because `parseInt` of a
  non-numeric string yields `NaN` and `NaN` propagates through
  `Math.min`, `+ 1` and comparisons exactly as modelled here.
* `fetch` outcomes are supplied as an explicit list of oracle responses,
  consumed one per request, and the token-refresh exchange is an oracle
  function; backoff sleeps are recorded in an output list of delays.
-/

/-- OAuth2 credential record as parsed from a `GCP_SERVICE_ACCOUNT_*`
environment slot (src/types.ts shape used by auth.ts). -/
structure OAuth2Credentials where
  access_token : String
  refresh_token : String
  expiry_date : Int
  id_token : String
deriving Repr, DecidableEq

/-- Cached token record stored in KV (interface CachedTokenData, auth.ts). -/
structure CachedTokenData where
  access_token : String
  expiry_date : Int
  cached_at : Int
deriving Repr, DecidableEq

/-- A JavaScript number restricted to the values that arise in auth.ts
index arithmetic: an integer or NaN. -/
inductive JSNum where
  | nan : JSNum
  | num (v : Int) : JSNum
deriving Repr, DecidableEq

namespace JSNum

/-- `x >= b` for a JS number `x` and integer `b`; comparisons with NaN are false. -/
def geInt : JSNum → Int → Bool
  | nan, _ => false
  | num v, b => decide (v ≥ b)

/-- `a < x` for an integer `a` and JS number `x`; comparisons with NaN are false. -/
def ltOf (a : Int) : JSNum → Bool
  | nan => false
  | num v => decide (a < v)

/-- `x + d` (NaN propagates). -/
def add : JSNum → Int → JSNum
  | nan, _ => nan
  | num v, d => num (v + d)

/-- `Math.min(x, b)` (NaN propagates). -/
def jsMin : JSNum → Int → JSNum
  | nan, _ => nan
  | num v, b => num (min v b)

/-- `x.toString()` for our values: NaN prints as "NaN", integers as usual. -/
def jsToString : JSNum → String
  | nan => "NaN"
  | num v => toString v

end JSNum

/-- Longest leading run of decimal digits. -/
def leadDigits (cs : List Char) : List Char :=
  cs.takeWhile Char.isDigit

/-- Decimal value of a digit list. -/
def digitsToNat (l : List Char) : Nat :=
  l.foldl (fun a c => a * 10 + (c.toNat - 48)) 0

/-- JavaScript `parseInt(s, 10)`: skip leading whitespace, optional sign,
then the longest digit run; NaN when no digit follows. -/
def jsParseInt (s : String) : JSNum :=
  let cs := s.data.dropWhile fun c => c = ' ' ∨ c = '\t' ∨ c = '\n' ∨ c = '\r'
  match cs with
  | '-' :: rest =>
      match leadDigits rest with
      | [] => JSNum.nan
      | ds => JSNum.num (-(digitsToNat ds : Int))
  | '+' :: rest =>
      match leadDigits rest with
      | [] => JSNum.nan
      | ds => JSNum.num (digitsToNat ds)
  | _ =>
      match leadDigits cs with
      | [] => JSNum.nan
      | ds => JSNum.num (digitsToNat ds)

/-- Value stored under a KV key: plain string, or a token-cache record
(the source serialises the record to JSON text; see module comment). -/
inductive KVVal where
  | str (s : String) : KVVal
  | tok (t : CachedTokenData) : KVVal
deriving Repr, DecidableEq

/-- One KV entry: key, value, and the TTL (seconds) passed to `put`, if any. -/
structure KVEntry where
  key : String
  val : KVVal
  ttl : Option JSNum
deriving Repr, DecidableEq

/-- The KV namespace: an association list, newest entry first, unique keys. -/
abbrev KV : Type := List KVEntry

/-- `get(key)`: the value of the first entry with this key. -/
def kvLookup : KV → String → Option KVVal
  | [], _ => none
  | e :: es, k => if e.key = k then some e.val else kvLookup es k

/-- `get(key)` as a plain string (cursor and exhaustion keys only ever hold
strings; a token record at such a key is unreachable and reads as absent). -/
def kvGetString (kv : KV) (k : String) : Option String :=
  match kvLookup kv k with
  | some (KVVal.str s) => some s
  | _ => none

/-- `get(key, "json")` as a token record (token keys only ever hold token
records; a plain string there fails to parse and reads as absent). -/
def kvGetJson (kv : KV) (k : String) : Option CachedTokenData :=
  match kvLookup kv k with
  | some (KVVal.tok t) => some t
  | _ => none

/-- Drop every entry with the given key (recursion-friendly filter). -/
def kvRemove : KV → String → KV
  | [], _ => []
  | e :: es, k => if e.key = k then kvRemove es k else e :: kvRemove es k

/-- `put(key, value, {expirationTtl}?)`: replaces any previous entry for the key. -/
def kvPut (kv : KV) (k : String) (v : KVVal) (ttl : Option JSNum) : KV :=
  ⟨k, v, ttl⟩ :: kvRemove kv k

/-- `delete(key)`. -/
def kvDelete (kv : KV) (k : String) : KV :=
  kvRemove kv k

/-- Configuration and platform functions the manager closes over:
the environment slots, and abstract models of the platform built-ins
`hashString` (src/utils/hashing.ts, not under src/), `JSON.parse` on a
credential blob, and `new Date(s).getTime()`. -/
structure Config where
  env : Nat → String
  hashString : String → Int
  parseCreds : String → Option OAuth2Credentials
  dateParse : String → JSNum

/-- Outcome of the OAuth refresh exchange (`fetch(OAUTH_REFRESH_URL, ...)`):
success with `{access_token, expires_in}`, a non-success HTTP response with
its error body, or a network-level failure. -/
inductive RefreshOutcome where
  | ok (accessToken : String) (expiresIn : Int) : RefreshOutcome
  | httpError (body : String) : RefreshOutcome
  | netError (msg : String) : RefreshOutcome

/-- Outcome of one upstream `fetch` to the Code Assist endpoint. -/
inductive FetchResult where
  | resp (status : Nat) (body : String) : FetchResult
  | netErr (msg : String) : FetchResult
deriving Repr, DecidableEq

/-- `response.ok`: status in the 2xx range. -/
def respOk (status : Nat) : Bool :=
  decide (200 ≤ status) && decide (status ≤ 299)

-- Constants from auth.ts.
def KV_EXHAUSTED_KEY_BASE : String := "exhausted_until_"
def EXHAUSTION_SAFETY_BUFFER : Int := 120000
/-- Modelled from the spec: `KV_CREDS_INDEX` lives in src/config.ts which is
not under src/; the spec lists the key as `creds_index`. -/
def KV_CREDS_INDEX : String := "creds_index"
/-- Modelled from the spec: `KV_TOKEN_KEY` lives in src/config.ts which is
not under src/; the spec lists the token-cache key as `token_<hash>`. -/
def KV_TOKEN_KEY : String := "token"
/-- Modelled from the spec: `TOKEN_BUFFER_TIME` lives in src/config.ts which
is not under src/; the spec's token-staleness scenario fixes the buffer at
300 seconds. -/
def TOKEN_BUFFER_TIME : Int := 300000

/-- Key of the exhaustion record for a credential index
(template `exhausted_until_(index)` in auth.ts). -/
def exhaustedKey (i : JSNum) : String :=
  KV_EXHAUSTED_KEY_BASE ++ i.jsToString

/-- Key of the token-cache entry for a credential hash
(template `token_(hash)`). -/
def tokenKey (h : Int) : String :=
  KV_TOKEN_KEY ++ "_" ++ toString h

/-- In-memory fields of an AuthManager instance. -/
structure AuthState where
  accessToken : Option String
  credsIndex : JSNum
  credsHash : Int
  credentials : List String
deriving Repr, DecidableEq

/-- A freshly constructed AuthManager. -/
def initialAuthState : AuthState :=
  ⟨none, JSNum.num 0, 0, []⟩

/-- `markCredentialExhausted(index, resetIso)` (auth.ts lines 59-66):
`until = Date.parse(resetIso) + safety buffer`, persisted as a string with
TTL `floor((until - now)/1000) + 3600` seconds. -/
def markCredentialExhausted (cfg : Config) (now : Int) (index : JSNum)
    (resetIso : String) (kv : KV) : KV :=
  let resetTime := (cfg.dateParse resetIso).add EXHAUSTION_SAFETY_BUFFER
  let ttl : JSNum :=
    match resetTime with
    | JSNum.nan => JSNum.nan
    | JSNum.num v => JSNum.num (Int.fdiv (v - now) 1000 + 3600)
  kvPut kv (exhaustedKey index) (KVVal.str resetTime.jsToString) (some ttl)

/-- `isCredentialExhausted(index)` (auth.ts lines 68-78): read the record;
absent (or falsy) means not exhausted; an expired record is lazily deleted.
Returns the answer together with the possibly cleaned-up store. -/
def isCredentialExhausted (now : Int) (index : JSNum) (kv : KV) : Bool × KV :=
  match kvGetString kv (exhaustedKey index) with
  | none => (false, kv)
  | some v =>
      if v = "" then (false, kv)
      else if JSNum.ltOf now (jsParseInt v) then (true, kv)
      else (false, kvDelete kv (exhaustedKey index))

/-- One circular step of the viability scan:
`next >= total - 1 ? 0 : next + 1` (auth.ts line 86). -/
def jsStep (total : Nat) : JSNum → JSNum
  | JSNum.nan => JSNum.nan
  | JSNum.num v => if v ≥ (total : Int) - 1 then JSNum.num 0 else JSNum.num (v + 1)

/-- The loop of `getNextViableCredentialIndex` (auth.ts lines 85-93):
`fuel` is the number of remaining iterations (`attempts < total`). At fuel 0
the current `next` — the last index visited — is returned. -/
def getNextViableAux (now : Int) (total : Nat) :
    Nat → JSNum → KV → JSNum × KV
  | 0, next, kv => (next, kv)
  | fuel + 1, next, kv =>
      let next1 := jsStep total next
      let r := isCredentialExhausted now next1 kv
      if r.1 then getNextViableAux now total fuel next1 r.2
      else (next1, r.2)

/-- `getNextViableCredentialIndex(currentIndex)` (auth.ts lines 80-94). -/
def getNextViableCredentialIndex (now : Int) (st : AuthState)
    (currentIndex : JSNum) (kv : KV) : JSNum × KV :=
  getNextViableAux now st.credentials.length st.credentials.length currentIndex kv

/-- Observer of the same loop: the list of indices the scan checks for
exhaustion, in order (one entry per `isCredentialExhausted` call). -/
def getNextViableVisits (now : Int) (total : Nat) :
    Nat → JSNum → KV → List JSNum
  | 0, _, _ => []
  | fuel + 1, next, kv =>
      let next1 := jsStep total next
      let r := isCredentialExhausted now next1 kv
      if r.1 then next1 :: getNextViableVisits now total fuel next1 r.2
      else [next1]

/-- Rotation reason (`"normal" | "exhausted"`). -/
inductive Reason where
  | normal : Reason
  | exhausted : Reason
deriving Repr, DecidableEq

/-- `Array.from(...).filter(...)` credential loading (auth.ts lines 157-160):
slots `GCP_SERVICE_ACCOUNT_0 .. _99`, keeping non-empty entries in slot order. -/
def loadCredentials (env : Nat → String) : List String :=
  ((List.range 100).map env).filter fun s => s.length > 0

/-- Truthiness of the optional `resetIso` argument (empty string is falsy). -/
def resetIsoTruthy : Option String → Bool
  | none => false
  | some s => decide (s ≠ "")

/-- The cursor read at the start of `rotateCredentials` (auth.ts lines
168-169): `Math.min(parseInt(saved ?? "0", 10), poolSize - 1)` — the
default applies only when the key is absent or the read fails, and the
clamp is from above only; a non-numeric string yields NaN. -/
def rotateCurrentIndex (kv : KV) (poolSize : Nat) : JSNum :=
  let savedIndexStr := (kvGetString kv KV_CREDS_INDEX).getD "0"
  (jsParseInt savedIndexStr).jsMin ((poolSize : Int) - 1)

/-- `rotateCredentials(reason, resetIso?)` (auth.ts lines 154-191). -/
def rotateCredentials (cfg : Config) (now : Int) (reason : Reason)
    (resetIso : Option String) (st : AuthState) (kv : KV) :
    Except String (AuthState × KV) :=
  -- Load all credentials once
  let creds :=
    if st.credentials.length = 0 then loadCredentials cfg.env else st.credentials
  if creds.length = 0 then
    Except.error "No GCP_SERVICE_ACCOUNT_* variables found"
  else
    -- Load current index (get may fail or be absent → "0"), clamp from above
    let currentIndex := rotateCurrentIndex kv creds.length
    let scanned :=
      match reason, resetIso with
      | Reason.exhausted, some iso =>
          if iso ≠ "" then
            -- Mark current one as dead, then find next healthy one
            let kv1 := markCredentialExhausted cfg now currentIndex iso kv
            getNextViableAux now creds.length creds.length currentIndex kv1
          else
            getNextViableAux now creds.length creds.length currentIndex kv
      | _, _ =>
          -- Normal rotation — just skip exhausted ones
          getNextViableAux now creds.length creds.length currentIndex kv
    let nextIndex := scanned.1
    let kv2 := kvPut scanned.2 KV_CREDS_INDEX (KVVal.str nextIndex.jsToString) none
    -- Reset token state so initializeAuth() runs fresh for the new credential
    Except.ok (⟨none, nextIndex, 0, creds⟩, kv2)

/-- `this.credentials[this.credsIndex]`: JS indexing, `undefined` (here
`none`) when the index is NaN or out of range. -/
def getCred (creds : List String) : JSNum → Option String
  | JSNum.nan => none
  | JSNum.num v =>
      if h : 0 ≤ v ∧ v.toNat < creds.length then some (creds.get ⟨v.toNat, h.2⟩)
      else none

/-- `cacheTokenInKV(accessToken, expiryDate)` (auth.ts lines 234-257):
TTL = floor((expiryDate - now)/1000) - 300; a non-positive TTL means the
token is not cached (and KV errors are swallowed — the model never fails). -/
def cacheTokenInKV (now : Int) (credsHash : Int) (accessToken : String)
    (expiryDate : Int) (kv : KV) : KV :=
  let ttlSeconds := Int.fdiv (expiryDate - now) 1000 - 300
  if ttlSeconds > 0 then
    kvPut kv (tokenKey credsHash) (KVVal.tok ⟨accessToken, expiryDate, now⟩)
      (some (JSNum.num ttlSeconds))
  else kv

/-- `clearTokenCache()` (auth.ts lines 262-269). -/
def clearTokenCache (st : AuthState) (kv : KV) : KV :=
  kvDelete kv (tokenKey st.credsHash)

/-- `refreshAndCacheToken(refreshToken)` (auth.ts lines 196-229): the
refresh exchange is the oracle; on success the expiry is
`now + expires_in * 1000` and the token is cached. Error strings are raw
(the caller's catch adds its own wrapping). -/
def refreshAndCacheToken (refresh : String → RefreshOutcome) (now : Int)
    (refreshToken : String) (st : AuthState) (kv : KV) :
    Except String (AuthState × KV) :=
  match refresh refreshToken with
  | RefreshOutcome.httpError body => Except.error ("Token refresh failed: " ++ body)
  | RefreshOutcome.netError m => Except.error m
  | RefreshOutcome.ok tok expiresIn =>
      let expiryTime := now + expiresIn * 1000
      Except.ok ({ st with accessToken := some tok },
        cacheTokenInKV now st.credsHash tok expiryTime kv)

/-- Tail of `initializeAuth` once the KV-cached token was found absent or
stale (auth.ts lines 132-146): adopt the credential's own embedded token if
still valid beyond the buffer (write-through to the cache), else refresh. -/
def initAuthStale (refresh : String → RefreshOutcome) (now : Int)
    (oauth2Creds : OAuth2Credentials) (st : AuthState) (kv : KV) :
    Except String (AuthState × KV) :=
  let timeUntilExpiry := oauth2Creds.expiry_date - now
  if timeUntilExpiry > TOKEN_BUFFER_TIME then
    Except.ok ({ st with accessToken := some oauth2Creds.access_token },
      cacheTokenInKV now st.credsHash oauth2Creds.access_token oauth2Creds.expiry_date kv)
  else
    refreshAndCacheToken refresh now oauth2Creds.refresh_token st kv

/-- `initializeAuth()` (auth.ts lines 99-152). The pool is NOT loaded here:
an empty in-memory credential list throws at once. `JSON.parse` of the
current credential sits outside the try block, so its failure propagates
unwrapped; failures inside the try are wrapped "Authentication failed: ...". -/
def initializeAuth (cfg : Config) (refresh : String → RefreshOutcome)
    (now : Int) (st : AuthState) (kv : KV) : Except String (AuthState × KV) :=
  if st.credentials.length = 0 then
    Except.error "`GCP_SERVICE_ACCOUNT_*` environment variable not set. Please provide OAuth2 credentials JSON."
  else
    match (getCred st.credentials st.credsIndex).bind cfg.parseCreds with
    | none => Except.error "Unexpected token in JSON"
    | some oauth2Creds =>
        let st1 := { st with credsHash := cfg.hashString oauth2Creds.id_token }
        let cachedTokenData := kvGetJson kv (tokenKey st1.credsHash)
        let tail :=
          match cachedTokenData with
          | some t =>
              if t.expiry_date - now > TOKEN_BUFFER_TIME then
                Except.ok ({ st1 with accessToken := some t.access_token }, kv)
              else initAuthStale refresh now oauth2Creds st1 kv
          | none => initAuthStale refresh now oauth2Creds st1 kv
        match tail with
        | Except.error m => Except.error ("Authentication failed: " ++ m)
        | Except.ok r => Except.ok r

/-- `callEndpoint(method, body, isRetry = true)` (auth.ts lines 300-325),
specialised to the retried call: with `isRetry` true the 401 branch is not
taken, so every non-2xx status falls through to the throw. -/
def callEndpointRetried (cfg : Config) (refresh : String → RefreshOutcome)
    (now : Int) (responses : List FetchResult) (st : AuthState) (kv : KV) :
    Except String (String × AuthState × KV) :=
  match initializeAuth cfg refresh now st kv with
  | Except.error e => Except.error e
  | Except.ok (st1, kv1) =>
      match responses with
      | [] => Except.error "fetch failed"
      | FetchResult.netErr m :: _ => Except.error m
      | FetchResult.resp status body :: _ =>
          if respOk status then Except.ok (body, st1, kv1)
          else
            Except.error ("API call failed with status " ++ toString status ++ ": " ++ body)

/-- `callEndpoint(method, body)` (auth.ts lines 300-325), entered with the
default `isRetry = false`: each upstream fetch consumes the head of
`responses`; on a 401 it clears the in-memory token and the KV token cache,
re-authenticates, and reissues the call exactly once with `isRetry = true`
(the recursion is unrolled into `callEndpointRetried`). -/
def callEndpoint (cfg : Config) (refresh : String → RefreshOutcome) (now : Int)
    (responses : List FetchResult) (st : AuthState) (kv : KV) :
    Except String (String × AuthState × KV) :=
  match initializeAuth cfg refresh now st kv with
  | Except.error e => Except.error e
  | Except.ok (st1, kv1) =>
      match responses with
      | [] => Except.error "fetch failed"
      | FetchResult.netErr m :: _ => Except.error m
      | FetchResult.resp status body :: rest =>
          if respOk status then Except.ok (body, st1, kv1)
          else if status = 401 then
            let st2 := { st1 with accessToken := none }
            let kv2 := clearTokenCache st2 kv1
            match initializeAuth cfg refresh now st2 kv2 with
            | Except.error e => Except.error e
            | Except.ok (st3, kv3) => callEndpointRetried cfg refresh now rest st3 kv3
          else
            Except.error ("API call failed with status " ++ toString status ++ ": " ++ body)

/-- Loop body of `callEndpointWithRetry` (auth.ts lines 336-391).
`remaining` counts the iterations still allowed (`attempt <= maxRetries`),
`delays` accumulates the backoff sleeps actually performed.  The crucial
point mirrored from the source: the `throw` for a non-retryable status sits
inside the `try`, so the generic catch captures it, records it as
`lastError`, sleeps if attempts remain and the loop continues.  A state
mutation preceding a thrown auth error is not observable by any caller of
the loop (the next iteration recomputes the hash before use), so errors
carry no partial state. -/
def callWithRetryAux (cfg : Config) (refresh : String → RefreshOutcome)
    (now : Int) (method : String) (maxRetries : Nat) (baseDelay : Int) :
    Nat → Nat → List FetchResult → AuthState → KV → Option String → List Int →
    Except String String × AuthState × KV × List Int
  | _, 0, _, st, kv, lastError, delays =>
      (Except.error (match lastError with
        | some e => e
        | none => "All " ++ toString maxRetries ++ " attempts failed for " ++ method),
       st, kv, delays)
  | attempt, remaining + 1, responses, st, kv, lastError, delays =>
      match initializeAuth cfg refresh now st kv with
      | Except.error e =>
          let d := if attempt < maxRetries then delays ++ [baseDelay * 2 ^ (attempt - 1)] else delays
          callWithRetryAux cfg refresh now method maxRetries baseDelay
            (attempt + 1) remaining responses st kv (some e) d
      | Except.ok (st1, kv1) =>
          match responses with
          | [] =>
              let d := if attempt < maxRetries then delays ++ [baseDelay * 2 ^ (attempt - 1)] else delays
              callWithRetryAux cfg refresh now method maxRetries baseDelay
                (attempt + 1) remaining [] st1 kv1 (some "fetch failed") d
          | FetchResult.netErr m :: rest =>
              let d := if attempt < maxRetries then delays ++ [baseDelay * 2 ^ (attempt - 1)] else delays
              callWithRetryAux cfg refresh now method maxRetries baseDelay
                (attempt + 1) remaining rest st1 kv1 (some m) d
          | FetchResult.resp status body :: rest =>
              if respOk status then (Except.ok body, st1, kv1, delays)
              else if status = 401 ∧ attempt = 1 then
                let st2 := { st1 with accessToken := none }
                let kv2 := clearTokenCache st2 kv1
                match initializeAuth cfg refresh now st2 kv2 with
                | Except.error e =>
                    let d := if attempt < maxRetries then delays ++ [baseDelay * 2 ^ (attempt - 1)] else delays
                    callWithRetryAux cfg refresh now method maxRetries baseDelay
                      (attempt + 1) remaining rest st2 kv2 (some e) d
                | Except.ok (st3, kv3) =>
                    callWithRetryAux cfg refresh now method maxRetries baseDelay
                      (attempt + 1) remaining rest st3 kv3 lastError delays
              else if status = 500 ∧ method = "loadCodeAssist" then
                if attempt < maxRetries then
                  callWithRetryAux cfg refresh now method maxRetries baseDelay
                    (attempt + 1) remaining rest st1 kv1
                    (some ("MCP service unavailable: " ++ body))
                    (delays ++ [baseDelay * 2 ^ (attempt - 1)])
                else
                  callWithRetryAux cfg refresh now method maxRetries baseDelay
                    (attempt + 1) remaining rest st1 kv1
                    (some ("API call failed with status " ++ toString status ++ ": " ++ body))
                    delays
              else
                let msg := "API call failed with status " ++ toString status ++ ": " ++ body
                let d := if attempt < maxRetries then delays ++ [baseDelay * 2 ^ (attempt - 1)] else delays
                callWithRetryAux cfg refresh now method maxRetries baseDelay
                  (attempt + 1) remaining rest st1 kv1 (some msg) d

/-- `callEndpointWithRetry(method, body, maxRetries, baseDelay)`
(auth.ts lines 330-392). -/
def callEndpointWithRetry (cfg : Config) (refresh : String → RefreshOutcome)
    (now : Int) (method : String) (maxRetries : Nat) (baseDelay : Int)
    (responses : List FetchResult) (st : AuthState) (kv : KV) :
    Except String String × AuthState × KV × List Int :=
  callWithRetryAux cfg refresh now method maxRetries baseDelay 1 maxRetries
    responses st kv none []


/-! ## Store lemmas -/

theorem kvLookup_remove (es : KV) (k k' : String) :
    kvLookup (kvRemove es k) k' = if k' = k then none else kvLookup es k' := by
  induction es with
  | nil =>
      simp only [kvRemove, kvLookup]
      split <;> rfl
  | cons e es ih =>
      simp only [kvRemove, kvLookup]
      by_cases hek : e.key = k
      · rw [if_pos hek, ih]
        by_cases hk : k' = k
        · simp [hk]
        · rw [if_neg hk, if_neg hk, if_neg (fun h => hk (h.symm.trans hek))]
      · rw [if_neg hek]
        simp only [kvLookup, ih]
        by_cases hek' : e.key = k'
        · rw [if_pos hek', if_pos hek', if_neg (fun h => hek (hek'.trans h))]
        · rw [if_neg hek', if_neg hek']

theorem kvLookup_put (kv : KV) (k : String) (v : KVVal) (ttl : Option JSNum)
    (k' : String) :
    kvLookup (kvPut kv k v ttl) k' = if k' = k then some v else kvLookup kv k' := by
  unfold kvPut
  simp only [kvLookup]
  by_cases h : k = k'
  · rw [if_pos h, if_pos h.symm]
  · have h' : ¬ k' = k := fun hk => h hk.symm
    rw [if_neg h, kvLookup_remove, if_neg h', if_neg h']

theorem kvLookup_delete (kv : KV) (k k' : String) :
    kvLookup (kvDelete kv k) k' = if k' = k then none else kvLookup kv k' :=
  kvLookup_remove kv k k'

/-! ## Exhaustion-check lemmas -/

/-- The check leaves the store untouched, except that a negative answer may
come with the expired record deleted. -/
theorem isExhausted_cases (now : Int) (i : JSNum) (kv : KV) :
    (isCredentialExhausted now i kv).2 = kv ∨
      ((isCredentialExhausted now i kv).1 = false ∧
        (isCredentialExhausted now i kv).2 = kvDelete kv (exhaustedKey i)) := by
  unfold isCredentialExhausted
  split
  · left; rfl
  · split
    · left; rfl
    · split
      · left; rfl
      · right; exact ⟨rfl, rfl⟩

/-- When the check answers "exhausted" the store is untouched. -/
theorem isExhausted_true_kv (now : Int) (i : JSNum) (kv : KV)
    (h : (isCredentialExhausted now i kv).1 = true) :
    (isCredentialExhausted now i kv).2 = kv := by
  rcases isExhausted_cases now i kv with h2 | ⟨hf, _⟩
  · exact h2
  · rw [h] at hf; cases hf

/-- The check only ever deletes the record it read: every key keeps its
value or becomes absent. -/
theorem isExhausted_kv_frame (now : Int) (i : JSNum) (kv : KV) (k : String) :
    kvLookup (isCredentialExhausted now i kv).2 k = kvLookup kv k ∨
      kvLookup (isCredentialExhausted now i kv).2 k = none := by
  rcases isExhausted_cases now i kv with h2 | ⟨_, h2⟩
  · left; rw [h2]
  · rw [h2, kvLookup_delete]
    by_cases hk : k = exhaustedKey i
    · right; rw [if_pos hk]
    · left; rw [if_neg hk]

/-! ## Pure view of the viability scan -/

/-- The scan of `getNextViableAux` with the exhaustion test abstracted to a
pure predicate — legitimate because a positive test never changes the store
(`isExhausted_true_kv`). -/
def scanPure (p : JSNum → Bool) (total : Nat) : Nat → JSNum → JSNum
  | 0, next => next
  | fuel + 1, next =>
      if p (jsStep total next) then scanPure p total fuel (jsStep total next)
      else jsStep total next

/-- Pure view of `getNextViableVisits`. -/
def visitsPure (p : JSNum → Bool) (total : Nat) : Nat → JSNum → List JSNum
  | 0, _ => []
  | fuel + 1, next =>
      if p (jsStep total next) then
        jsStep total next :: visitsPure p total fuel (jsStep total next)
      else [jsStep total next]

theorem getNextViableAux_fst_eq_scanPure (now : Int) (total : Nat) (kv : KV) :
    ∀ fuel next,
      (getNextViableAux now total fuel next kv).1 =
        scanPure (fun i => (isCredentialExhausted now i kv).1) total fuel next := by
  intro fuel
  induction fuel with
  | zero => intro next; rfl
  | succ fuel ih =>
      intro next
      show (if (isCredentialExhausted now (jsStep total next) kv).1 = true then
              getNextViableAux now total fuel (jsStep total next)
                (isCredentialExhausted now (jsStep total next) kv).2
            else (jsStep total next, (isCredentialExhausted now (jsStep total next) kv).2)).1 = _
      by_cases h : (isCredentialExhausted now (jsStep total next) kv).1 = true
      · rw [if_pos h, isExhausted_true_kv now _ kv h]
        simp only [scanPure, h, if_true, ih]
      · rw [if_neg h]
        simp only [scanPure]
        rw [if_neg (by simpa using h)]

theorem getNextViableVisits_eq_visitsPure (now : Int) (total : Nat) (kv : KV) :
    ∀ fuel next,
      getNextViableVisits now total fuel next kv =
        visitsPure (fun i => (isCredentialExhausted now i kv).1) total fuel next := by
  intro fuel
  induction fuel with
  | zero => intro next; rfl
  | succ fuel ih =>
      intro next
      show (if (isCredentialExhausted now (jsStep total next) kv).1 = true then
              jsStep total next :: getNextViableVisits now total fuel (jsStep total next)
                (isCredentialExhausted now (jsStep total next) kv).2
            else [jsStep total next]) = _
      by_cases h : (isCredentialExhausted now (jsStep total next) kv).1 = true
      · rw [if_pos h, isExhausted_true_kv now _ kv h]
        simp only [visitsPure, h, if_true, ih]
      · rw [if_neg h]
        simp only [visitsPure]
        rw [if_neg (by simpa using h)]

/-- One circular step, on in-range natural indices. -/
theorem jsStep_nat (N v : Nat) (hv : v < N) :
    jsStep N (JSNum.num v) = JSNum.num (((v + 1) % N : Nat) : Int) := by
  rw [show jsStep N (JSNum.num (v : Int)) =
        (if (v : Int) ≥ (N : Int) - 1 then JSNum.num 0 else JSNum.num ((v : Int) + 1))
      from rfl]
  by_cases h : v + 1 = N
  · rw [if_pos (by omega)]
    have hm : (v + 1) % N = 0 := by rw [h]; exact Nat.mod_self N
    rw [hm]
    rfl
  · have hlt : v + 1 < N := by omega
    rw [if_neg (by omega), Nat.mod_eq_of_lt hlt]
    simp

/-- Scan over a fully-exhausted pool: after `fuel` steps the scan sits at
`(v + fuel) mod N`, so `N` steps lead back to the start. -/
theorem scanPure_all (p : JSNum → Bool) (N : Nat)
    (hall : ∀ w : Nat, w < N → p (JSNum.num w) = true) :
    ∀ (fuel v : Nat), v < N →
      scanPure p N fuel (JSNum.num v) = JSNum.num (((v + fuel) % N : Nat) : Int) := by
  intro fuel
  induction fuel with
  | zero =>
      intro v hv
      simp [scanPure, Nat.mod_eq_of_lt hv]
  | succ fuel ih =>
      intro v hv
      simp only [scanPure, jsStep_nat N v hv]
      have hmem : (v + 1) % N < N := Nat.mod_lt _ (by omega)
      rw [hall _ hmem, if_pos rfl, ih _ hmem]
      have harith : ((v + 1) % N + fuel) % N = (v + (fuel + 1)) % N := by
        rw [Nat.mod_add_mod]
        congr 1
        omega
      rw [harith]

/-- Number of scan steps from `v` to reach `j` going circularly upward. -/
def cdist (v j N : Nat) : Nat :=
  if v < j then j - v else N - v + j

theorem cdist_le (v j N : Nat) (hv : v < N) (hj : j < N) : cdist v j N ≤ N := by
  unfold cdist
  split <;> omega

theorem cdist_pos (v j N : Nat) (hv : v < N) : 1 ≤ cdist v j N := by
  unfold cdist
  split <;> omega

/-- Scan when `j` is the only viable index: the scan finds `j` as soon as the
fuel covers the circular distance. -/
theorem scanPure_unique (p : JSNum → Bool) (N j : Nat) (hj : j < N)
    (hpj : p (JSNum.num j) = false)
    (hother : ∀ w : Nat, w < N → w ≠ j → p (JSNum.num w) = true) :
    ∀ (fuel v : Nat), v < N → cdist v j N ≤ fuel →
      scanPure p N fuel (JSNum.num v) = JSNum.num j := by
  intro fuel
  induction fuel with
  | zero =>
      intro v hv hd
      have := cdist_pos v j N hv
      omega
  | succ fuel ih =>
      intro v hv hd
      simp only [scanPure, jsStep_nat N v hv]
      have hmem : (v + 1) % N < N := Nat.mod_lt _ (by omega)
      by_cases hw : (v + 1) % N = j
      · rw [hw, hpj]
        simp
      · rw [hother _ hmem hw, if_pos rfl]
        apply ih _ hmem
        -- the circular distance decreases by one along a step
        have hstep : cdist ((v + 1) % N) j N + 1 = cdist v j N := by
          by_cases hvN : v + 1 = N
          · have h0 : (v + 1) % N = 0 := by rw [hvN]; exact Nat.mod_self N
            rw [h0]
            unfold cdist
            have hj0 : 0 < j := by
              rcases Nat.eq_zero_or_pos j with h | h
              · exact absurd (h0.trans h.symm) hw
              · exact h
            split <;> split <;> omega
          · have h1 : (v + 1) % N = v + 1 := Nat.mod_eq_of_lt (by omega)
            rw [h1] at hw ⊢
            unfold cdist
            split <;> split <;> omega
        omega

/-- The scan never leaves the index range when started inside it. -/
theorem scanPure_mem_range (p : JSNum → Bool) (N : Nat) :
    ∀ (fuel v : Nat), v < N →
      ∃ w : Nat, w < N ∧ scanPure p N fuel (JSNum.num v) = JSNum.num w := by
  intro fuel
  induction fuel with
  | zero => intro v hv; exact ⟨v, hv, rfl⟩
  | succ fuel ih =>
      intro v hv
      simp only [scanPure, jsStep_nat N v hv]
      have hmem : (v + 1) % N < N := Nat.mod_lt _ (by omega)
      by_cases h : p (JSNum.num (((v + 1) % N : Nat) : Int)) = true
      · rw [h, if_pos rfl]
        exact ih _ hmem
      · rw [if_neg (by simpa using h)]
        exact ⟨(v + 1) % N, hmem, rfl⟩

/-- The scan's answer is one of the visited indices (positive fuel). -/
theorem scanPure_mem_visitsPure (p : JSNum → Bool) (N : Nat) :
    ∀ (fuel : Nat) (next : JSNum), 1 ≤ fuel →
      scanPure p N fuel next ∈ visitsPure p N fuel next := by
  intro fuel
  induction fuel with
  | zero => intro next h; omega
  | succ fuel ih =>
      intro next _
      simp only [scanPure, visitsPure]
      by_cases h : p (jsStep N next) = true
      · rw [h]
        simp only [if_pos rfl]
        rcases Nat.eq_zero_or_pos fuel with hf | hf
        · subst hf
          simp [scanPure, visitsPure]
        · exact List.mem_cons_of_mem _ (ih _ hf)
      · rw [if_neg (by simpa using h), if_neg (by simpa using h)]
        exact List.mem_singleton.mpr rfl

/-- The visit list is never longer than the fuel. -/
theorem visitsPure_length (p : JSNum → Bool) (N : Nat) :
    ∀ (fuel : Nat) (next : JSNum), (visitsPure p N fuel next).length ≤ fuel := by
  intro fuel
  induction fuel with
  | zero => intro next; simp [visitsPure]
  | succ fuel ih =>
      intro next
      simp only [visitsPure]
      split
      · simpa using ih (jsStep N next)
      · simp

/-- The visit list is a prefix of the circular tour starting one past `v`. -/
theorem visitsPure_prefix_of_tour (p : JSNum → Bool) (N : Nat) :
    ∀ (fuel v : Nat), v < N →
      visitsPure p N fuel (JSNum.num v) <+:
        (List.range fuel).map fun t => JSNum.num (((v + t + 1) % N : Nat) : Int) := by
  intro fuel
  induction fuel with
  | zero => intro v hv; simp [visitsPure]
  | succ fuel ih =>
      intro v hv
      have hmem : (v + 1) % N < N := Nat.mod_lt _ (by omega)
      have hmap : ((List.range (fuel + 1)).map
            fun t => JSNum.num (((v + t + 1) % N : Nat) : Int)) =
          JSNum.num (((v + 1) % N : Nat) : Int) ::
            ((List.range fuel).map
              fun t => JSNum.num ((((v + 1) % N + t + 1) % N : Nat) : Int)) := by
        rw [List.range_succ_eq_map, List.map_cons, List.map_map]
        have hfun : ((fun t => JSNum.num (((v + t + 1) % N : Nat) : Int)) ∘ Nat.succ) =
            fun t => JSNum.num ((((v + 1) % N + t + 1) % N : Nat) : Int) := by
          funext t
          show JSNum.num (((v + Nat.succ t + 1) % N : Nat) : Int) = _
          have harith : ((v + 1) % N + t + 1) % N = (v + Nat.succ t + 1) % N := by
            rw [Nat.add_assoc, Nat.mod_add_mod]
            congr 1
            omega
          rw [harith]
        rw [hfun]
      rw [hmap]
      simp only [visitsPure, jsStep_nat N v hv]
      by_cases h : p (JSNum.num (((v + 1) % N : Nat) : Int)) = true
      · rw [h, if_pos rfl]
        exact (List.cons_prefix_cons).mpr ⟨rfl, ih _ hmem⟩
      · rw [if_neg (by simpa using h)]
        exact ⟨_, rfl⟩

/-- The circular tour of length `N` visits pairwise distinct indices. -/
theorem tour_nodup (N v : Nat) :
    (((List.range N).map fun t => JSNum.num (((v + t + 1) % N : Nat) : Int))).Nodup := by
  apply List.Nodup.map_on _ (List.nodup_range N)
  intro t1 h1 t2 h2 heq
  simp only [List.mem_range] at h1 h2
  have h3 : ((v + t1 + 1) % N : Nat) = ((v + t2 + 1) % N) := by
    injection heq with h
    exact_mod_cast h
  have e1 : v + t1 + 1 = (v + 1) + t1 := by omega
  have e2 : v + t2 + 1 = (v + 1) + t2 := by omega
  rw [e1, e2] at h3
  have ht : t1 ≡ t2 [MOD N] := Nat.ModEq.add_left_cancel' (v + 1) h3
  exact Nat.ModEq.eq_of_lt_of_lt ht h1 h2

/-- A scan with positive fuel visits at least one index. -/
theorem visitsPure_ne_nil (p : JSNum → Bool) (N : Nat) (fuel : Nat) (next : JSNum)
    (h : 1 ≤ fuel) : visitsPure p N fuel next ≠ [] := by
  cases fuel with
  | zero => omega
  | succ f =>
      simp only [visitsPure]
      split <;> simp

/-- The scan's answer is exactly the last index visited. -/
theorem visitsPure_getLast_eq_scan (p : JSNum → Bool) (N : Nat) :
    ∀ (fuel : Nat) (next : JSNum), 1 ≤ fuel →
      (visitsPure p N fuel next).getLast? = some (scanPure p N fuel next) := by
  intro fuel
  induction fuel with
  | zero => intro next h; omega
  | succ fuel ih =>
      intro next _
      simp only [visitsPure, scanPure]
      by_cases h : p (jsStep N next) = true
      · rw [h, if_pos rfl, if_pos rfl]
        rcases Nat.eq_zero_or_pos fuel with hf | hf
        · subst hf
          simp [visitsPure, scanPure]
        · have hne := visitsPure_ne_nil p N fuel (jsStep N next) hf
          rcases hv : visitsPure p N fuel (jsStep N next) with _ | ⟨b, bs⟩
          · exact absurd hv hne
          · rw [← hv, ← ih _ hf]
            rw [hv]
            exact List.getLast?_cons_cons
      · rw [if_neg (by simpa using h), if_neg (by simpa using h)]
        rfl

/-! ## Claims about the rotation scan -/

/-- C4: for every pool size N ≥ 1 and start index in [0, N-1],
`getNextViableCredentialIndex` performs at most N exhaustion checks (the
visit list — one entry per check — has length ≤ N), visits each pool index
at most once (the visit list has no duplicates), and terminates with the
returned index among the visited ones. -/
theorem nextViable_scan_bound (now : Int) (st : AuthState) (kv : KV) (s : Nat)
    (h1 : 1 ≤ st.credentials.length) (hs : s < st.credentials.length) :
    (getNextViableVisits now st.credentials.length st.credentials.length
        (JSNum.num s) kv).length ≤ st.credentials.length ∧
    (getNextViableVisits now st.credentials.length st.credentials.length
        (JSNum.num s) kv).Nodup ∧
    (getNextViableCredentialIndex now st (JSNum.num s) kv).1 ∈
      getNextViableVisits now st.credentials.length st.credentials.length
        (JSNum.num s) kv := by
  refine ⟨?_, ?_, ?_⟩
  · rw [getNextViableVisits_eq_visitsPure]
    exact visitsPure_length _ _ _ _
  · rw [getNextViableVisits_eq_visitsPure]
    exact ((visitsPure_prefix_of_tour _ _ _ s hs).sublist).nodup (tour_nodup _ s)
  · unfold getNextViableCredentialIndex
    rw [getNextViableVisits_eq_visitsPure, getNextViableAux_fst_eq_scanPure]
    exact scanPure_mem_visitsPure _ _ _ _ h1

/-- C4 witness: pool of two credentials, scan from index 0 on an empty store. -/
theorem nextViable_scan_bound_witness :
    (getNextViableVisits 0 2 2 (JSNum.num 0) []).length ≤ 2 ∧
    (getNextViableVisits 0 2 2 (JSNum.num 0) []).Nodup ∧
    (getNextViableCredentialIndex 0 ⟨none, JSNum.num 0, 0, ["a", "b"]⟩
        (JSNum.num 0) []).1 ∈ getNextViableVisits 0 2 2 (JSNum.num 0) [] :=
  nextViable_scan_bound 0 ⟨none, JSNum.num 0, 0, ["a", "b"]⟩ [] 0
    (by decide) (by decide)

/-- C5: if exactly one credential index is non-exhausted, the scan returns
that index from every start index (including when the only viable index is
the start itself). -/
theorem nextViable_unique_viable (now : Int) (st : AuthState) (kv : KV)
    (s j : Nat) (hs : s < st.credentials.length) (hj : j < st.credentials.length)
    (hpj : (isCredentialExhausted now (JSNum.num j) kv).1 = false)
    (hother : ∀ w : Nat, w < st.credentials.length → w ≠ j →
      (isCredentialExhausted now (JSNum.num w) kv).1 = true) :
    (getNextViableCredentialIndex now st (JSNum.num s) kv).1 = JSNum.num j := by
  unfold getNextViableCredentialIndex
  rw [getNextViableAux_fst_eq_scanPure]
  exact scanPure_unique _ _ j hj hpj hother _ s hs (cdist_le s j _ hs hj)

/-- C5 witness: three credentials, indices 0 and 2 exhausted, scanning from
start index 1 — whose credential is itself the only viable one. -/
theorem nextViable_unique_viable_witness :
    (getNextViableCredentialIndex 0
        ⟨none, JSNum.num 0, 0, ["a", "b", "c"]⟩ (JSNum.num 1)
        [⟨"exhausted_until_0", KVVal.str "9999999", none⟩,
         ⟨"exhausted_until_2", KVVal.str "9999999", none⟩]).1 = JSNum.num 1 :=
  nextViable_unique_viable 0 ⟨none, JSNum.num 0, 0, ["a", "b", "c"]⟩
    [⟨"exhausted_until_0", KVVal.str "9999999", none⟩,
     ⟨"exhausted_until_2", KVVal.str "9999999", none⟩]
    1 1 (by decide) (by decide) (by decide) (by decide)

/-- C6: if every credential index is exhausted, the scan returns the start
index itself — a valid index in [0, N-1] and precisely the last index
visited — without any error (the function is total and touches neither the
credential list nor, on the all-exhausted path, the store). -/
theorem nextViable_all_exhausted (now : Int) (st : AuthState) (kv : KV)
    (s : Nat) (hs : s < st.credentials.length)
    (hall : ∀ w : Nat, w < st.credentials.length →
      (isCredentialExhausted now (JSNum.num w) kv).1 = true) :
    (getNextViableCredentialIndex now st (JSNum.num s) kv).1 = JSNum.num s ∧
    s < st.credentials.length ∧
    (getNextViableVisits now st.credentials.length st.credentials.length
        (JSNum.num s) kv).getLast? =
      some (getNextViableCredentialIndex now st (JSNum.num s) kv).1 := by
  have h1 : 1 ≤ st.credentials.length := by omega
  have hres : (getNextViableCredentialIndex now st (JSNum.num s) kv).1 = JSNum.num s := by
    unfold getNextViableCredentialIndex
    rw [getNextViableAux_fst_eq_scanPure, scanPure_all _ _ hall _ s hs]
    rw [Nat.add_mod_right s st.credentials.length, Nat.mod_eq_of_lt hs]
  refine ⟨hres, hs, ?_⟩
  rw [getNextViableVisits_eq_visitsPure]
  unfold getNextViableCredentialIndex
  rw [getNextViableAux_fst_eq_scanPure]
  exact visitsPure_getLast_eq_scan _ _ _ _ h1

/-- C6 witness: two credentials, both exhausted, scanning from index 0. -/
theorem nextViable_all_exhausted_witness :
    (getNextViableCredentialIndex 0 ⟨none, JSNum.num 0, 0, ["a", "b"]⟩
        (JSNum.num 0)
        [⟨"exhausted_until_0", KVVal.str "9999999", none⟩,
         ⟨"exhausted_until_1", KVVal.str "9999999", none⟩]).1 = JSNum.num 0 ∧
    0 < 2 ∧
    (getNextViableVisits 0 2 2 (JSNum.num 0)
        [⟨"exhausted_until_0", KVVal.str "9999999", none⟩,
         ⟨"exhausted_until_1", KVVal.str "9999999", none⟩]).getLast? =
      some (getNextViableCredentialIndex 0 ⟨none, JSNum.num 0, 0, ["a", "b"]⟩
        (JSNum.num 0)
        [⟨"exhausted_until_0", KVVal.str "9999999", none⟩,
         ⟨"exhausted_until_1", KVVal.str "9999999", none⟩]).1 :=
  nextViable_all_exhausted 0 ⟨none, JSNum.num 0, 0, ["a", "b"]⟩
    [⟨"exhausted_until_0", KVVal.str "9999999", none⟩,
     ⟨"exhausted_until_1", KVVal.str "9999999", none⟩]
    0 (by decide) (by decide)

/-! ## Claims about rotateCredentials -/

/-- C3: with 3 credentials, cursor 0 and nothing exhausted, a rotation for
exhaustion with reset timestamp `now + 60s` writes the exhaustion record for
index 0 with `until = reset + 120000 ms = now + 180s` and TTL
`(until - now)/1000 + 3600 = 3780` seconds, selects index 1, and persists
cursor = 1 (also resetting the in-memory token state). -/
theorem rotate_exhausted_scenario (cfg : Config) (now : Int) (iso : String)
    (a : Option String) (i : JSNum) (h0 : Int) (c0 c1 c2 : String)
    (hdate : cfg.dateParse iso = JSNum.num (now + 60000)) (hiso : iso ≠ "") :
    rotateCredentials cfg now Reason.exhausted (some iso)
        ⟨a, i, h0, [c0, c1, c2]⟩ [⟨KV_CREDS_INDEX, KVVal.str "0", none⟩] =
      Except.ok (⟨none, JSNum.num 1, 0, [c0, c1, c2]⟩,
        [⟨KV_CREDS_INDEX, KVVal.str "1", none⟩,
         ⟨exhaustedKey (JSNum.num 0),
          KVVal.str (JSNum.num (now + 180000)).jsToString,
          some (JSNum.num 3780)⟩]) := by
  have e1 : now + 60000 + 120000 = now + 180000 := by ring
  simp only [rotateCredentials, rotateCurrentIndex, markCredentialExhausted]
  rw [hdate]
  simp only [JSNum.add, EXHAUSTION_SAFETY_BUFFER, e1]
  rw [if_pos hiso]
  have e2 : now + 180000 - now = 180000 := by ring
  rw [e2]
  generalize (JSNum.num (now + 180000)).jsToString = valStr
  rfl

/-- Configuration used by the C3 witness: the date parser reads the reset
timestamp as 60 s past epoch. -/
def cfgRotateW : Config :=
  ⟨fun _ => "", fun _ => 0, fun _ => none, fun _ => JSNum.num 60000⟩

/-- C3 witness: the scenario at `now = 0`. -/
theorem rotate_exhausted_scenario_witness :
    rotateCredentials cfgRotateW 0 Reason.exhausted (some "r")
        ⟨none, JSNum.num 0, 0, ["a", "b", "c"]⟩
        [⟨KV_CREDS_INDEX, KVVal.str "0", none⟩] =
      Except.ok (⟨none, JSNum.num 1, 0, ["a", "b", "c"]⟩,
        [⟨KV_CREDS_INDEX, KVVal.str "1", none⟩,
         ⟨exhaustedKey (JSNum.num 0),
          KVVal.str (JSNum.num (0 + 180000)).jsToString,
          some (JSNum.num 3780)⟩]) :=
  rotate_exhausted_scenario cfgRotateW 0 "r" none (JSNum.num 0) 0 "a" "b" "c"
    (by rfl) (by decide)

/-- The scan's store effects are only deletions: every key keeps its value
or ends up absent. -/
theorem getNextViableAux_kv_frame (now : Int) (total : Nat) :
    ∀ (fuel : Nat) (next : JSNum) (kv : KV) (k : String),
      kvLookup (getNextViableAux now total fuel next kv).2 k = kvLookup kv k ∨
        kvLookup (getNextViableAux now total fuel next kv).2 k = none := by
  intro fuel
  induction fuel with
  | zero => intro next kv k; left; rfl
  | succ fuel ih =>
      intro next kv k
      simp only [getNextViableAux]
      by_cases h : (isCredentialExhausted now (jsStep total next) kv).1 = true
      · rw [if_pos h, isExhausted_true_kv now _ kv h]
        exact ih _ kv k
      · rw [if_neg h]
        exact isExhausted_kv_frame now _ kv k

/-- Exhaustion keys and the cursor key are distinct (length 16 + … vs 11). -/
theorem exhaustedKey_ne_cursor (i : JSNum) : exhaustedKey i ≠ KV_CREDS_INDEX := by
  intro h
  have hlen : (exhaustedKey i).length = (KV_CREDS_INDEX).length := by rw [h]
  unfold exhaustedKey KV_EXHAUSTED_KEY_BASE KV_CREDS_INDEX at hlen
  rw [String.length_append] at hlen
  have h16 : ("exhausted_until_" : String).length = 16 := rfl
  have h11 : ("creds_index" : String).length = 11 := rfl
  rw [h16, h11] at hlen
  omega

/-- C10: a rotation with reason "exhausted" but no reset timestamp behaves
exactly like a normal rotation: it writes no exhaustion record for any
credential (every exhaustion key keeps its prior value or is lazily
cleaned), it persists the selected cursor, and it resets the in-memory
access token and credential hash. -/
theorem rotate_exhausted_no_reset (cfg : Config) (now : Int)
    (st : AuthState) (kv : KV) :
    rotateCredentials cfg now Reason.exhausted none st kv =
      rotateCredentials cfg now Reason.normal none st kv ∧
    ∀ (stres : AuthState) (kvres : KV),
      rotateCredentials cfg now Reason.exhausted none st kv =
          Except.ok (stres, kvres) →
        stres.accessToken = none ∧ stres.credsHash = 0 ∧
        stres.credentials =
          (if st.credentials.length = 0 then loadCredentials cfg.env
           else st.credentials) ∧
        kvLookup kvres KV_CREDS_INDEX =
          some (KVVal.str stres.credsIndex.jsToString) ∧
        ∀ idx : JSNum,
          kvLookup kvres (exhaustedKey idx) = kvLookup kv (exhaustedKey idx) ∨
            kvLookup kvres (exhaustedKey idx) = none := by
  constructor
  · rfl
  · intro stres kvres h
    have heq : rotateCredentials cfg now Reason.exhausted none st kv =
        (if (if st.credentials.length = 0 then loadCredentials cfg.env
             else st.credentials).length = 0 then
           Except.error "No GCP_SERVICE_ACCOUNT_* variables found"
         else
           Except.ok
             (⟨none,
               (getNextViableAux now
                 (if st.credentials.length = 0 then loadCredentials cfg.env
                  else st.credentials).length
                 (if st.credentials.length = 0 then loadCredentials cfg.env
                  else st.credentials).length
                 (rotateCurrentIndex kv
                   (if st.credentials.length = 0 then loadCredentials cfg.env
                    else st.credentials).length) kv).1,
               0,
               (if st.credentials.length = 0 then loadCredentials cfg.env
                else st.credentials)⟩,
              kvPut
                (getNextViableAux now
                  (if st.credentials.length = 0 then loadCredentials cfg.env
                   else st.credentials).length
                  (if st.credentials.length = 0 then loadCredentials cfg.env
                   else st.credentials).length
                  (rotateCurrentIndex kv
                    (if st.credentials.length = 0 then loadCredentials cfg.env
                     else st.credentials).length) kv).2
                KV_CREDS_INDEX
                (KVVal.str
                  (getNextViableAux now
                    (if st.credentials.length = 0 then loadCredentials cfg.env
                     else st.credentials).length
                    (if st.credentials.length = 0 then loadCredentials cfg.env
                     else st.credentials).length
                    (rotateCurrentIndex kv
                      (if st.credentials.length = 0 then loadCredentials cfg.env
                       else st.credentials).length) kv).1.jsToString)
                none)) := rfl
    rw [heq] at h
    by_cases hl : (if st.credentials.length = 0 then loadCredentials cfg.env
        else st.credentials).length = 0
    · rw [if_pos hl] at h
      exact Except.noConfusion h
    · rw [if_neg hl] at h
      rw [Except.ok.injEq, Prod.mk.injEq] at h
      obtain ⟨hst, hkv⟩ := h
      subst hst
      subst hkv
      refine ⟨rfl, rfl, rfl, ?_, ?_⟩
      · rw [kvLookup_put, if_pos rfl]
      · intro idx
        rw [kvLookup_put, if_neg (exhaustedKey_ne_cursor idx)]
        exact getNextViableAux_kv_frame now _ _ _ kv (exhaustedKey idx)

/-- C10 witness: one credential, empty store; the no-reset exhausted
rotation equals the normal one and leaves the index-0 exhaustion key absent. -/
theorem rotate_exhausted_no_reset_witness :
    rotateCredentials cfgRotateW 0 Reason.exhausted none
        ⟨none, JSNum.num 0, 0, ["a"]⟩ [] =
      rotateCredentials cfgRotateW 0 Reason.normal none
        ⟨none, JSNum.num 0, 0, ["a"]⟩ [] ∧
    (kvLookup [⟨KV_CREDS_INDEX, KVVal.str "0", none⟩] (exhaustedKey (JSNum.num 0)) =
        kvLookup ([] : KV) (exhaustedKey (JSNum.num 0)) ∨
      kvLookup [⟨KV_CREDS_INDEX, KVVal.str "0", none⟩] (exhaustedKey (JSNum.num 0)) =
        none) := by
  refine ⟨(rotate_exhausted_no_reset cfgRotateW 0 ⟨none, JSNum.num 0, 0, ["a"]⟩ []).1, ?_⟩
  exact ((rotate_exhausted_no_reset cfgRotateW 0 ⟨none, JSNum.num 0, 0, ["a"]⟩ []).2
    ⟨none, JSNum.num 0, 0, ["a"]⟩ [⟨KV_CREDS_INDEX, KVVal.str "0", none⟩] rfl).2.2.2.2
    (JSNum.num 0)

/-- C9 counterexample: pool of one credential and stored cursor "x" — a
string that is neither absent nor numeric. `parseInt` gives NaN, `Math.min`
keeps NaN, and the rotation runs with and persists the non-integer cursor
"NaN": the index used is not an integer in [0, 0] (the only such integer
being 0). -/
theorem rotate_cursor_nan_counterexample :
    rotateCredentials cfgRotateW 0 Reason.normal none
        ⟨none, JSNum.num 0, 0, ["c0"]⟩ [⟨KV_CREDS_INDEX, KVVal.str "x", none⟩] =
      Except.ok (⟨none, JSNum.nan, 0, ["c0"]⟩,
        [⟨KV_CREDS_INDEX, KVVal.str "NaN", none⟩]) ∧
    JSNum.nan ≠ JSNum.num 0 :=
  ⟨rfl, by decide⟩

/-- Whenever the starting index is a genuine in-range integer, the rotation
succeeds and both the selected in-memory index and the persisted cursor are
integers in [0, N-1]. -/
theorem rotate_ok_shape (cfg : Config) (now : Int) (reason : Reason)
    (resetIso : Option String) (st : AuthState) (kv : KV) (m : Nat)
    (hne : ¬ st.credentials.length = 0) (hm : m < st.credentials.length)
    (hcur : rotateCurrentIndex kv st.credentials.length = JSNum.num m) :
    ∃ (r : Nat) (stres : AuthState) (kvres : KV), r < st.credentials.length ∧
      rotateCredentials cfg now reason resetIso st kv = Except.ok (stres, kvres) ∧
      stres.credsIndex = JSNum.num r ∧
      kvLookup kvres KV_CREDS_INDEX =
        some (KVVal.str (JSNum.num (r : Int)).jsToString) := by
  have key : ∀ kv' : KV, ∃ w : Nat, w < st.credentials.length ∧
      (getNextViableAux now st.credentials.length st.credentials.length
        (JSNum.num m) kv').1 = JSNum.num w := by
    intro kv'
    have h := scanPure_mem_range
      (fun i => (isCredentialExhausted now i kv').1) st.credentials.length
      st.credentials.length m hm
    rcases h with ⟨w, hw, hsc⟩
    refine ⟨w, hw, ?_⟩
    rw [getNextViableAux_fst_eq_scanPure]
    exact hsc
  rcases reason with _ | _ <;> rcases resetIso with _ | iso <;>
    simp only [rotateCredentials, if_neg hne, hcur]
  · rcases key kv with ⟨w, hw, hS⟩
    exact ⟨w, _, _, hw, rfl, hS, by rw [kvLookup_put, if_pos rfl, hS]⟩
  · rcases key kv with ⟨w, hw, hS⟩
    exact ⟨w, _, _, hw, rfl, hS, by rw [kvLookup_put, if_pos rfl, hS]⟩
  · rcases key kv with ⟨w, hw, hS⟩
    exact ⟨w, _, _, hw, rfl, hS, by rw [kvLookup_put, if_pos rfl, hS]⟩
  · by_cases hiso : iso ≠ ""
    · rw [if_pos hiso]
      rcases key (markCredentialExhausted cfg now (JSNum.num m) iso kv) with ⟨w, hw, hS⟩
      exact ⟨w, _, _, hw, rfl, hS, by rw [kvLookup_put, if_pos rfl, hS]⟩
    · rw [if_neg hiso]
      rcases key kv with ⟨w, hw, hS⟩
      exact ⟨w, _, _, hw, rfl, hS, by rw [kvLookup_put, if_pos rfl, hS]⟩

/-- C9 (amended): the cursor read defaults to "0" only when the key is
absent (or the read fails) and is clamped from above only; when the stored
cursor string parses to a nonnegative integer k, the current index used for
the rotation decision is the integer min(k, N-1) ∈ [0, N-1], and the index
selected and the cursor persisted afterwards are integers in [0, N-1].
(A non-numeric stored string instead yields NaN, and a negative parse is
not clamped — see the counterexample.) -/
theorem rotate_cursor_in_range (cfg : Config) (now : Int) (reason : Reason)
    (resetIso : Option String) (st : AuthState) (kv : KV) (k : Int)
    (hne : ¬ st.credentials.length = 0)
    (hparse : jsParseInt ((kvGetString kv KV_CREDS_INDEX).getD "0") = JSNum.num k)
    (hk : 0 ≤ k) :
    rotateCurrentIndex kv st.credentials.length =
      JSNum.num (min k ((st.credentials.length : Int) - 1)) ∧
    0 ≤ min k ((st.credentials.length : Int) - 1) ∧
    min k ((st.credentials.length : Int) - 1) < (st.credentials.length : Int) ∧
    ∃ (r : Nat) (stres : AuthState) (kvres : KV), r < st.credentials.length ∧
      rotateCredentials cfg now reason resetIso st kv = Except.ok (stres, kvres) ∧
      stres.credsIndex = JSNum.num r ∧
      kvLookup kvres KV_CREDS_INDEX =
        some (KVVal.str (JSNum.num (r : Int)).jsToString) := by
  have hlen : 1 ≤ st.credentials.length := Nat.one_le_iff_ne_zero.mpr hne
  have hcur : rotateCurrentIndex kv st.credentials.length =
      JSNum.num (min k ((st.credentials.length : Int) - 1)) := by
    show (jsParseInt ((kvGetString kv KV_CREDS_INDEX).getD "0")).jsMin
        ((st.credentials.length : Int) - 1) = _
    rw [hparse]
    rfl
  have h0 : 0 ≤ min k ((st.credentials.length : Int) - 1) := by omega
  have h1 : min k ((st.credentials.length : Int) - 1) < (st.credentials.length : Int) := by
    omega
  refine ⟨hcur, h0, h1, ?_⟩
  have hmnat : min k ((st.credentials.length : Int) - 1) =
      (((min k ((st.credentials.length : Int) - 1)).toNat : Nat) : Int) := by omega
  have hmlt : (min k ((st.credentials.length : Int) - 1)).toNat <
      st.credentials.length := by omega
  rw [hmnat] at hcur
  exact rotate_ok_shape cfg now reason resetIso st kv _ hne hmlt hcur

/-- C9 witness: three credentials with stored cursor "1". -/
theorem rotate_cursor_in_range_witness :
    rotateCurrentIndex [⟨KV_CREDS_INDEX, KVVal.str "1", none⟩] 3 =
      JSNum.num (min 1 ((3 : Int) - 1)) ∧
    0 ≤ min 1 ((3 : Int) - 1) ∧
    min 1 ((3 : Int) - 1) < (3 : Int) ∧
    ∃ (r : Nat) (stres : AuthState) (kvres : KV), r < 3 ∧
      rotateCredentials cfgRotateW 0 Reason.normal none
          ⟨none, JSNum.num 0, 0, ["a", "b", "c"]⟩
          [⟨KV_CREDS_INDEX, KVVal.str "1", none⟩] = Except.ok (stres, kvres) ∧
      stres.credsIndex = JSNum.num r ∧
      kvLookup kvres KV_CREDS_INDEX =
        some (KVVal.str (JSNum.num (r : Int)).jsToString) :=
  rotate_cursor_in_range cfgRotateW 0 Reason.normal none
    ⟨none, JSNum.num 0, 0, ["a", "b", "c"]⟩
    [⟨KV_CREDS_INDEX, KVVal.str "1", none⟩] 1 (by decide) (by rfl) (by decide)

/-! ## Claims about initializeAuth -/

/-- Refresh oracle that always fails at network level (never returns a token). -/
def refreshDown : String → RefreshOutcome :=
  fun _ => RefreshOutcome.netError "network down"

/-- Configuration whose slot 0 holds a credential blob (used to exhibit the
fresh-manager authentication failure). -/
def cfgSlot0 : Config :=
  ⟨fun i => if i = 0 then "cred" else "", fun _ => 0, fun _ => none,
   fun _ => JSNum.nan⟩

/-- C2 (code-bug evidence): on a fresh Auth Manager whose pool has not been
loaded, `initializeAuth` throws the missing-credentials error immediately —
it never loads the pool (only `rotateCredentials` does) — even though the
configured slots do yield a credential; the repository's own debug routes
(`/v1/debug/token-test`, `/v1/debug/test`) call `initializeAuth` directly on
fresh managers and so always fail. -/
theorem initializeAuth_fresh_fails_despite_config :
    initializeAuth cfgSlot0 refreshDown 0 initialAuthState [] =
      Except.error "`GCP_SERVICE_ACCOUNT_*` environment variable not set. Please provide OAuth2 credentials JSON." ∧
    loadCredentials cfgSlot0.env ≠ [] :=
  ⟨rfl, by decide⟩

/-- C7: with a token entry present in the KV cache for the current
credential, `initializeAuth` adopts it — returning with that access token
and an untouched store — if and only if its `expiry_date` minus the current
time strictly exceeds the token buffer time.  (The distinctness hypotheses
rule out the stale path coincidentally producing the same token.) -/
theorem initializeAuth_cache_adoption_iff (cfg : Config)
    (refresh : String → RefreshOutcome) (now : Int) (st : AuthState) (kv : KV)
    (creds : OAuth2Credentials) (t : CachedTokenData)
    (hne : ¬ st.credentials.length = 0)
    (hget : (getCred st.credentials st.credsIndex).bind cfg.parseCreds = some creds)
    (htok : kvGetJson kv (tokenKey (cfg.hashString creds.id_token)) = some t)
    (hd1 : t.access_token ≠ creds.access_token)
    (hd2 : ∀ (rt a : String) (e : Int), refresh rt = RefreshOutcome.ok a e →
      a ≠ t.access_token) :
    (initializeAuth cfg refresh now st kv =
        Except.ok ({ st with
          credsHash := cfg.hashString creds.id_token
          accessToken := some t.access_token }, kv)) ↔
      t.expiry_date - now > TOKEN_BUFFER_TIME := by
  simp only [initializeAuth, if_neg hne, hget, htok]
  constructor
  · intro heq
    by_cases hfresh : t.expiry_date - now > TOKEN_BUFFER_TIME
    · exact hfresh
    · exfalso
      rw [if_neg hfresh] at heq
      simp only [initAuthStale] at heq
      split at heq
      · exact Except.noConfusion heq
      · rename_i r hr
        rw [Except.ok.injEq] at heq
        split at hr
        · rw [Except.ok.injEq] at hr
          have hcomb := hr.trans heq
          have ha := congrArg (fun p => p.1.accessToken) hcomb
          simp only at ha
          exact hd1 (Option.some.inj ha).symm
        · simp only [refreshAndCacheToken] at hr
          rcases hrf : refresh creds.refresh_token with ⟨a, e⟩ | b | m <;>
            rw [hrf] at hr
          · rw [Except.ok.injEq] at hr
            have hcomb := hr.trans heq
            have ha := congrArg (fun p => p.1.accessToken) hcomb
            simp only at ha
            exact hd2 _ _ _ hrf (Option.some.inj ha)
          · exact Except.noConfusion hr
          · exact Except.noConfusion hr
  · intro hfresh
    rw [if_pos hfresh]

/-- Configuration for the token-cache witnesses: one parsed credential whose
own token is long expired, hash constantly 5. -/
def cfgTokenW : Config :=
  ⟨fun _ => "", fun _ => 5, fun _ => some ⟨"orig", "rt", 0, "id"⟩,
   fun _ => JSNum.nan⟩

/-- C7 witness, the spec's staleness scenario: an entry cached with
`expiry_date = 1000 s` (epoch ms) read at `now = expiry - 200 s` under the
300 s buffer satisfies the iff with a false right-hand side, so it is NOT
adopted. -/
theorem initializeAuth_cache_adoption_iff_witness :
    ((initializeAuth cfgTokenW refreshDown 800000
        ⟨none, JSNum.num 0, 0, ["blob"]⟩
        [⟨tokenKey 5, KVVal.tok ⟨"cached", 1000000, 0⟩, none⟩] =
      Except.ok (⟨some "cached", JSNum.num 0, 5, ["blob"]⟩,
        [⟨tokenKey 5, KVVal.tok ⟨"cached", 1000000, 0⟩, none⟩])) ↔
      (1000000 : Int) - 800000 > TOKEN_BUFFER_TIME) ∧
    ¬ ((1000000 : Int) - 800000 > TOKEN_BUFFER_TIME) := by
  constructor
  · exact initializeAuth_cache_adoption_iff cfgTokenW refreshDown 800000
      ⟨none, JSNum.num 0, 0, ["blob"]⟩
      [⟨tokenKey 5, KVVal.tok ⟨"cached", 1000000, 0⟩, none⟩]
      ⟨"orig", "rt", 0, "id"⟩ ⟨"cached", 1000000, 0⟩
      (by decide) rfl rfl (by decide)
      (fun rt a e h => RefreshOutcome.noConfusion h)
  · decide

/-! ## Claims about callEndpoint -/

/-- C8: `callEndpoint` retries at most once.  Under a state that
authenticates via the credential's own still-valid token: a non-2xx,
non-401 first response fails at once with an error carrying that status and
body; after a 401 on the first (non-retry) call the in-memory token and KV
token entry are cleared, authentication is redone and the request reissued
exactly once — the caller sees only the successful response's body when the
second response is 2xx, and an error carrying the second status and body
otherwise (including a second 401).  The responses after the second are
never consumed (`rest` is arbitrary). -/
theorem callEndpoint_401_retry (cfg : Config) (refresh : String → RefreshOutcome)
    (now : Int) (st : AuthState) (kv : KV) (creds : OAuth2Credentials)
    (hne : ¬ st.credentials.length = 0)
    (hget : (getCred st.credentials st.credsIndex).bind cfg.parseCreds = some creds)
    (hnotok : kvGetJson kv (tokenKey (cfg.hashString creds.id_token)) = none)
    (hfresh : creds.expiry_date - now > 301000) :
    (∀ (s1 : Nat) (b1 : String) (rest : List FetchResult),
      respOk s1 = false → ¬ s1 = 401 →
      callEndpoint cfg refresh now (FetchResult.resp s1 b1 :: rest) st kv =
        Except.error ("API call failed with status " ++ toString s1 ++ ": " ++ b1)) ∧
    (∀ (b1 : String) (s2 : Nat) (b2 : String) (rest : List FetchResult),
      respOk s2 = true →
      ∃ (stf : AuthState) (kvf : KV),
        callEndpoint cfg refresh now
          (FetchResult.resp 401 b1 :: FetchResult.resp s2 b2 :: rest) st kv =
          Except.ok (b2, stf, kvf)) ∧
    (∀ (b1 : String) (s2 : Nat) (b2 : String) (rest : List FetchResult),
      respOk s2 = false →
      callEndpoint cfg refresh now
        (FetchResult.resp 401 b1 :: FetchResult.resp s2 b2 :: rest) st kv =
        Except.error ("API call failed with status " ++ toString s2 ++ ": " ++ b2)) := by
  have hBUF : TOKEN_BUFFER_TIME = 300000 := rfl
  have hbuf : creds.expiry_date - now > TOKEN_BUFFER_TIME := by rw [hBUF]; omega
  have httl : Int.fdiv (creds.expiry_date - now) 1000 - 300 > 0 := by
    rw [Int.fdiv_eq_ediv _ (by norm_num)]
    omega
  have hbuf2 : (⟨creds.access_token, creds.expiry_date, now⟩ :
      CachedTokenData).expiry_date - now > TOKEN_BUFFER_TIME := hbuf
  have hauthGen : ∀ (stX : AuthState) (kvX : KV),
      ¬ stX.credentials.length = 0 →
      (getCred stX.credentials stX.credsIndex).bind cfg.parseCreds = some creds →
      kvGetJson kvX (tokenKey (cfg.hashString creds.id_token)) = none →
      initializeAuth cfg refresh now stX kvX =
        Except.ok ({ stX with
            credsHash := cfg.hashString creds.id_token
            accessToken := some creds.access_token },
          kvPut kvX (tokenKey (cfg.hashString creds.id_token))
            (KVVal.tok ⟨creds.access_token, creds.expiry_date, now⟩)
            (some (JSNum.num (Int.fdiv (creds.expiry_date - now) 1000 - 300)))) := by
    intro stX kvX h1 h2 h3
    simp only [initializeAuth, if_neg h1, h2, h3, initAuthStale, if_pos hbuf,
      cacheTokenInKV, if_pos httl]
  have hauthCached : ∀ (stX : AuthState) (kvX : KV),
      ¬ stX.credentials.length = 0 →
      (getCred stX.credentials stX.credsIndex).bind cfg.parseCreds = some creds →
      kvGetJson kvX (tokenKey (cfg.hashString creds.id_token)) =
        some ⟨creds.access_token, creds.expiry_date, now⟩ →
      initializeAuth cfg refresh now stX kvX =
        Except.ok ({ stX with
            credsHash := cfg.hashString creds.id_token
            accessToken := some creds.access_token }, kvX) := by
    intro stX kvX h1 h2 h3
    simp only [initializeAuth, if_neg h1, h2, h3, if_pos hbuf2]
  have hdel : ∀ (kvX : KV),
      kvGetJson (kvDelete kvX (tokenKey (cfg.hashString creds.id_token)))
        (tokenKey (cfg.hashString creds.id_token)) = none := by
    intro kvX
    simp [kvGetJson, kvLookup_delete]
  have hput : ∀ (kvX : KV),
      kvGetJson (kvPut kvX (tokenKey (cfg.hashString creds.id_token))
          (KVVal.tok ⟨creds.access_token, creds.expiry_date, now⟩)
          (some (JSNum.num (Int.fdiv (creds.expiry_date - now) 1000 - 300))))
        (tokenKey (cfg.hashString creds.id_token)) =
        some ⟨creds.access_token, creds.expiry_date, now⟩ := by
    intro kvX
    simp [kvGetJson, kvLookup_put]
  have hauth2 : initializeAuth cfg refresh now
      ⟨none, st.credsIndex, cfg.hashString creds.id_token, st.credentials⟩
      (kvDelete (kvPut kv (tokenKey (cfg.hashString creds.id_token))
          (KVVal.tok ⟨creds.access_token, creds.expiry_date, now⟩)
          (some (JSNum.num (Int.fdiv (creds.expiry_date - now) 1000 - 300))))
        (tokenKey (cfg.hashString creds.id_token))) =
      Except.ok
        (⟨some creds.access_token, st.credsIndex, cfg.hashString creds.id_token,
          st.credentials⟩,
         kvPut (kvDelete (kvPut kv (tokenKey (cfg.hashString creds.id_token))
              (KVVal.tok ⟨creds.access_token, creds.expiry_date, now⟩)
              (some (JSNum.num (Int.fdiv (creds.expiry_date - now) 1000 - 300))))
            (tokenKey (cfg.hashString creds.id_token)))
           (tokenKey (cfg.hashString creds.id_token))
           (KVVal.tok ⟨creds.access_token, creds.expiry_date, now⟩)
           (some (JSNum.num (Int.fdiv (creds.expiry_date - now) 1000 - 300)))) :=
    hauthGen _ _ hne hget (hdel _)
  have hauth3 : initializeAuth cfg refresh now
      ⟨some creds.access_token, st.credsIndex, cfg.hashString creds.id_token,
        st.credentials⟩
      (kvPut (kvDelete (kvPut kv (tokenKey (cfg.hashString creds.id_token))
            (KVVal.tok ⟨creds.access_token, creds.expiry_date, now⟩)
            (some (JSNum.num (Int.fdiv (creds.expiry_date - now) 1000 - 300))))
          (tokenKey (cfg.hashString creds.id_token)))
         (tokenKey (cfg.hashString creds.id_token))
         (KVVal.tok ⟨creds.access_token, creds.expiry_date, now⟩)
         (some (JSNum.num (Int.fdiv (creds.expiry_date - now) 1000 - 300)))) =
      Except.ok
        (⟨some creds.access_token, st.credsIndex, cfg.hashString creds.id_token,
          st.credentials⟩,
         kvPut (kvDelete (kvPut kv (tokenKey (cfg.hashString creds.id_token))
              (KVVal.tok ⟨creds.access_token, creds.expiry_date, now⟩)
              (some (JSNum.num (Int.fdiv (creds.expiry_date - now) 1000 - 300))))
            (tokenKey (cfg.hashString creds.id_token)))
           (tokenKey (cfg.hashString creds.id_token))
           (KVVal.tok ⟨creds.access_token, creds.expiry_date, now⟩)
           (some (JSNum.num (Int.fdiv (creds.expiry_date - now) 1000 - 300)))) :=
    hauthCached _ _ hne hget (hput _)
  refine ⟨?_, ?_, ?_⟩
  · intro s1 b1 rest hok h401
    simp only [callEndpoint, hauthGen st kv hne hget hnotok, hok,
      Bool.false_eq_true, if_false, if_neg h401]
  · intro b1 s2 b2 rest hok2
    simp [callEndpoint, callEndpointRetried, clearTokenCache, hok2, kvGetJson,
      kvLookup_put, kvLookup_delete, show respOk 401 = false from by decide]
    rw [hauthGen st kv hne hget hnotok]
    dsimp only
    rw [hauth2]
    dsimp only
    rw [hauth3]
    dsimp only
    exact ⟨_, _, rfl⟩
  · intro b1 s2 b2 rest hok2
    simp [callEndpoint, callEndpointRetried, clearTokenCache, hok2, kvGetJson,
      kvLookup_put, kvLookup_delete, show respOk 401 = false from by decide]
    rw [hauthGen st kv hne hget hnotok]
    dsimp only
    rw [hauth2]
    dsimp only
    rw [hauth3]

/-- Configuration for the endpoint witnesses: one parsed credential with a
far-future embedded token, hash constantly 9. -/
def cfgEndpointW : Config :=
  ⟨fun _ => "", fun _ => 9, fun _ => some ⟨"tok", "rt", 1000000000, "id"⟩,
   fun _ => JSNum.nan⟩

/-- C8 witness: first call answers 401, retried call answers 200 — the
caller sees only the success body. -/
theorem callEndpoint_401_retry_witness :
    ∃ (stf : AuthState) (kvf : KV),
      callEndpoint cfgEndpointW refreshDown 0
        [FetchResult.resp 401 "unauth", FetchResult.resp 200 "yay"]
        ⟨none, JSNum.num 0, 0, ["blob"]⟩ [] = Except.ok ("yay", stf, kvf) :=
  (callEndpoint_401_retry cfgEndpointW refreshDown 0
    ⟨none, JSNum.num 0, 0, ["blob"]⟩ [] ⟨"tok", "rt", 1000000000, "id"⟩
    (by decide) rfl rfl (by decide)).2.1 "unauth" 200 "yay" [] (by decide)

/-! ## Claims about callEndpointWithRetry -/

/-- C1 counterexample: a 403 (neither 401-on-first-attempt nor
500-on-loadCodeAssist) does NOT fail immediately: the throw sits inside the
try block, the generic catch captures it, and with maxRetries = 3 two more
attempts run with backoff delays 1000 ms and 2000 ms before the error is
finally raised. -/
theorem retry_nonspecial_backoff_counterexample :
    (callEndpointWithRetry cfgEndpointW refreshDown 0 "m" 3 1000
        [FetchResult.resp 403 "forbidden", FetchResult.resp 403 "forbidden",
         FetchResult.resp 403 "forbidden"]
        ⟨none, JSNum.num 0, 0, ["blob"]⟩ []).2.2.2 = [1000, 2000] ∧
    ([1000, 2000] : List Int) ≠ [] ∧
    (callEndpointWithRetry cfgEndpointW refreshDown 0 "m" 3 1000
        [FetchResult.resp 403 "forbidden", FetchResult.resp 403 "forbidden",
         FetchResult.resp 403 "forbidden"]
        ⟨none, JSNum.num 0, 0, ["blob"]⟩ []).1 =
      Except.error "API call failed with status 403: forbidden" :=
  ⟨rfl, by decide, rfl⟩

/-- C1 (amended): when an attempt of `callEndpointWithRetry` (default
maxRetries = 3) receives a non-2xx status that is neither a 401 nor a 500
on "loadCodeAssist", the thrown error is captured by the loop's catch like
a network failure: each failing attempt before the last is followed by a
backoff delay of `baseDelay * 2^(attempt-1)` and a retry, and only after
the final attempt does the call fail, with the last error carrying that
status and body. -/
theorem callWithRetry_nonspecial_status (cfg : Config)
    (refresh : String → RefreshOutcome) (now : Int) (method : String)
    (st : AuthState) (kv : KV) (creds : OAuth2Credentials) (d : Int)
    (hne : ¬ st.credentials.length = 0)
    (hget : (getCred st.credentials st.credsIndex).bind cfg.parseCreds = some creds)
    (hnotok : kvGetJson kv (tokenKey (cfg.hashString creds.id_token)) = none)
    (hfresh : creds.expiry_date - now > 301000)
    (s : Nat) (b1 b2 b3 : String) (rest : List FetchResult)
    (hok : respOk s = false) (h401 : ¬ s = 401)
    (h500 : ¬ (s = 500 ∧ method = "loadCodeAssist")) :
    ∃ (stf : AuthState) (kvf : KV),
      callEndpointWithRetry cfg refresh now method 3 d
        (FetchResult.resp s b1 :: FetchResult.resp s b2 ::
          FetchResult.resp s b3 :: rest) st kv =
        (Except.error ("API call failed with status " ++ toString s ++ ": " ++ b3),
         stf, kvf, [d * 2 ^ 0, d * 2 ^ 1]) := by
  have hBUF : TOKEN_BUFFER_TIME = 300000 := rfl
  have hbuf : creds.expiry_date - now > TOKEN_BUFFER_TIME := by rw [hBUF]; omega
  have httl : Int.fdiv (creds.expiry_date - now) 1000 - 300 > 0 := by
    rw [Int.fdiv_eq_ediv _ (by norm_num)]
    omega
  have hbuf2 : (⟨creds.access_token, creds.expiry_date, now⟩ :
      CachedTokenData).expiry_date - now > TOKEN_BUFFER_TIME := hbuf
  have hauthA : initializeAuth cfg refresh now st kv =
      Except.ok (⟨some creds.access_token, st.credsIndex,
          cfg.hashString creds.id_token, st.credentials⟩,
        kvPut kv (tokenKey (cfg.hashString creds.id_token))
          (KVVal.tok ⟨creds.access_token, creds.expiry_date, now⟩)
          (some (JSNum.num (Int.fdiv (creds.expiry_date - now) 1000 - 300)))) := by
    simp only [initializeAuth, if_neg hne, hget, hnotok, initAuthStale,
      if_pos hbuf, cacheTokenInKV, if_pos httl]
  have hauthB : initializeAuth cfg refresh now
      ⟨some creds.access_token, st.credsIndex,
        cfg.hashString creds.id_token, st.credentials⟩
      (kvPut kv (tokenKey (cfg.hashString creds.id_token))
        (KVVal.tok ⟨creds.access_token, creds.expiry_date, now⟩)
        (some (JSNum.num (Int.fdiv (creds.expiry_date - now) 1000 - 300)))) =
      Except.ok (⟨some creds.access_token, st.credsIndex,
          cfg.hashString creds.id_token, st.credentials⟩,
        kvPut kv (tokenKey (cfg.hashString creds.id_token))
          (KVVal.tok ⟨creds.access_token, creds.expiry_date, now⟩)
          (some (JSNum.num (Int.fdiv (creds.expiry_date - now) 1000 - 300)))) := by
    have hp : kvGetJson (kvPut kv (tokenKey (cfg.hashString creds.id_token))
        (KVVal.tok ⟨creds.access_token, creds.expiry_date, now⟩)
        (some (JSNum.num (Int.fdiv (creds.expiry_date - now) 1000 - 300))))
        (tokenKey (cfg.hashString creds.id_token)) =
        some ⟨creds.access_token, creds.expiry_date, now⟩ := by
      simp [kvGetJson, kvLookup_put]
    simp only [initializeAuth, if_neg hne, hget, hp, if_pos hbuf2]
  simp only [callEndpointWithRetry, callWithRetryAux, hauthA, hauthB, hok,
    Bool.false_eq_true, if_false, h401, false_and, h500, if_true]
  simp [h401, h500]

/-- C1 witness for the amended claim: status 403 on every attempt with
baseDelay 7. -/
theorem callWithRetry_nonspecial_status_witness :
    ∃ (stf : AuthState) (kvf : KV),
      callEndpointWithRetry cfgEndpointW refreshDown 0 "m" 3 7
        [FetchResult.resp 403 "x", FetchResult.resp 403 "y",
         FetchResult.resp 403 "z"]
        ⟨none, JSNum.num 0, 0, ["blob"]⟩ [] =
        (Except.error ("API call failed with status " ++ toString 403 ++ ": " ++ "z"),
         stf, kvf, [7 * 2 ^ 0, 7 * 2 ^ 1]) :=
  callWithRetry_nonspecial_status cfgEndpointW refreshDown 0 "m"
    ⟨none, JSNum.num 0, 0, ["blob"]⟩ [] ⟨"tok", "rt", 1000000000, "id"⟩ 7
    (by decide) rfl rfl (by decide) 403 "x" "y" "z" [] (by decide) (by decide)
    (by decide)
